import Mathlib

/-!
Verification of the DistAlgo process runtime simulator (`dpy/sim.py`,
class `DistProcess`): a shallow embedding of its event dispatch, pattern
triggering, label-scoped job queue, fault injection, logical-clock
bookkeeping, handshake protocol, and message bookkeeping helpers, with
theorems settling the specified properties.

Modelling conventions:
  - Python's mutable process state becomes explicit state records
    (`PState`, handshake state `HSState`); methods become functions from
    state to state.
  - `random.randint(0, 100)` (which in Python returns an integer in the
    INCLUSIVE range [0, 100]) is modelled by passing the drawn value
    `draw : Nat` with the side condition `draw ≤ 100` (`possibleDraw`).
  - Handler callables are opaque: a `Handler` carries its label filter
    attributes (`_labels` / `_notlabels`) and an opaque `call` function
    whose result records whether invoking it with the captured bindings
    raised a `TypeError` (insufficient bindings), the only exception the
    job-queue loop catches.
  - The pattern matcher (module `pattern`, not part of these sources) is
    opaque: `Pattern.matchFn` maps an event to `some bindings` on success.
    The `Event` record and its canonical tuple form are modelled from the
    spec (the `pattern` module is external to this file set).
  - Logging, real time, and OS process machinery are elided; the values
    the code computes (clock, queues, results, exit codes) are kept.
-/

namespace DistSim

/-- Event kinds: `pattern.SentEvent` / `pattern.ReceivedEvent`. -/
inductive EventKind where
  | sent
  | received
deriving DecidableEq, Repr

/-- Modelled from the spec: an `Event` from the external `pattern` module —
kind, opaque payload, logical timestamp, optional source and destination
process ids (§3 of the design). Process ids are modelled as `Nat`. -/
structure Event (α : Type) where
  kind : EventKind
  message : α
  timestamp : Nat
  source : Option Nat
  dest : Option Nat
deriving DecidableEq, Repr

/-- Canonical tuple form of an event. -/
abbrev EvTuple (α : Type) := EventKind × α × Nat × Option Nat × Option Nat

/-- Modelled from the spec: `event.to_tuple()`, the canonical tuple form
`(kind, payload, timestamp, source, destination)` (§4.4). -/
def Event.to_tuple (e : Event α) : EvTuple α :=
  (e.kind, e.message, e.timestamp, e.source, e.dest)

/-- Outcome of invoking a handler callable with captured bindings: normal
return, or the `TypeError` that `_process_jobqueue` catches when the
bindings cannot satisfy the handler's parameters. -/
inductive CallOutcome where
  | ok
  | typeError
deriving DecidableEq, Repr

/-- A handler callable as the job queue sees it: its `_labels` and
`_notlabels` attributes (optional label inclusion/exclusion sets, modelled
as lists) and its opaque invocation behaviour on a bindings value `β`. -/
structure Handler (β : Type) where
  labels : Option (List String)
  notlabels : Option (List String)
  call : β → CallOutcome

/-- The `record_history` attribute of a pattern: `None` (disabled), `True`
(append the raw event tuple), or a callable update stub. -/
inductive RecordHistory (α : Type) where
  | disabled
  | appendRaw
  | custom (update : List (EvTuple α) → EvTuple α → List (EvTuple α))

/-- A registered pattern: its name (addressing the history field on the
process), its opaque match capability (produces bindings on success; the
`bindings` dict, `ignore_bound_vars=True` and the `**self.__dict__`
snapshot are part of the opaque capability), its history policy and its
handler list. -/
structure Pattern (α β : Type) where
  name : String
  matchFn : Event α → Option β
  record_history : RecordHistory α
  handlers : List (Handler β)

/-- The process state touched by the dispatch path: `_logical_clock`, the
per-name history containers (fields addressed by pattern names), and
`_jobqueue` (pending handler invocations with their bindings). -/
structure PState (α β : Type) where
  logical_clock : Nat
  histories : String → List (EvTuple α)
  jobqueue : List (Handler β × β)

/-- History update step of `_trigger_event` for one matched pattern:
`if p.record_history is True: getattr(self, p.name).append(event.to_tuple())`
`elif p.record_history is not None: p.record_history(getattr(self, p.name), event.to_tuple())`. -/
def updateHistory (p : Pattern α β) (s : PState α β) (e : Event α) : PState α β :=
  match p.record_history with
  | RecordHistory.disabled => s
  | RecordHistory.appendRaw =>
      { s with histories := fun n =>
          if n = p.name then s.histories p.name ++ [e.to_tuple] else s.histories n }
  | RecordHistory.custom f =>
      { s with histories := fun n =>
          if n = p.name then f (s.histories p.name) e.to_tuple else s.histories n }

/-- Body of `_trigger_event`'s loop for one pattern `p`: if `p` matches the
event, update the history per the policy and append one job per handler,
carrying this match's bindings; otherwise leave the state unchanged. -/
def triggerOne (e : Event α) (s : PState α β) (p : Pattern α β) : PState α β :=
  match p.matchFn e with
  | Option.none => s
  | Option.some bindings =>
      let s1 := updateHistory p s e
      { s1 with jobqueue := s1.jobqueue ++ p.handlers.map (fun h => (h, bindings)) }

/-- `_trigger_event(event)`: evaluate every registered pattern, in
registration order, against the event. -/
def trigger_event (ps : List (Pattern α β)) (s : PState α β) (e : Event α) : PState α β :=
  ps.foldl (triggerOne e) s

/-- `_process_event(block, timeout)` on the dispatch side: `popped` is the
result of `self._eventq.get(block, timeout)` — `none` when the queue was
empty (the `queue.Empty` branch returns with no effect), `some e` when an
event was popped, in which case
`self._logical_clock = max(self._logical_clock, event.timestamp) + 1`
and the event is triggered. -/
def process_event (ps : List (Pattern α β)) (s : PState α β) (popped : Option (Event α)) :
    PState α β :=
  match popped with
  | Option.none => s
  | Option.some e =>
      trigger_event ps { s with logical_clock := max s.logical_clock e.timestamp + 1 } e

/-- Admissibility test of `_process_jobqueue`:
`(handler._labels is None or label in handler._labels) and
 (handler._notlabels is None or label not in handler._notlabels)`. -/
def admits (h : Handler β) (label : String) : Bool :=
  (match h.labels with
   | Option.none => true
   | Option.some ls => decide (label ∈ ls)) &&
  (match h.notlabels with
   | Option.none => true
   | Option.some ls => decide (label ∉ ls))

/-- `_process_jobqueue(label)`: walk the queue in order; run each admissible
job (recording its outcome — a `TypeError` is caught and logged), keep each
non-admissible job in `newq`. Returns (executed jobs with outcomes in
execution order, the new queue `newq`). -/
def process_jobqueue (label : String) :
    List (Handler β × β) → List ((Handler β × β) × CallOutcome) × List (Handler β × β)
  | [] => ([], [])
  | (h, args) :: rest =>
      let r := process_jobqueue label rest
      if admits h label then
        (((h, args), h.call args) :: r.1, r.2)
      else
        (r.1, (h, args) :: r.2)

/-- `exit(self, code)`: `raise SystemExit(10)`. The value returned is the
exit status the raised `SystemExit` carries. -/
def exit (code : Int) : Int := 10

/-- A draw of `random.randint(0, 100)`: any integer in the inclusive range
[0, 100]. -/
def possibleDraw (draw : Nat) : Bool := draw ≤ 100

/-- `_fails(failtype)` with the random draw made explicit: returns `false`
for a fault class absent from the `_failures` table, else `true` iff
`draw < rate`. The table is an association list mirroring the `_failures`
dict. -/
def fails (failures : List (String × Nat)) (draw : Nat) (failtype : String) : Bool :=
  match failures.lookup failtype with
  | Option.none => false
  | Option.some rate => decide (draw < rate)

/-- Result of the crash check at the top of `_label`: either a forced exit
(via `self.exit(10)`, whose raised status `exit` computes) or control
proceeding into event/job processing. -/
inductive LabelStep where
  | forcedExit (code : Int)
  | proceed
deriving DecidableEq, Repr

/-- The crash-injection fragment of `_label(name, ...)`:
`if (self._fails('crash')): self.output(...); self.exit(10)`. -/
def label_crash_check (failures : List (String × Nat)) (draw : Nat) : LabelStep :=
  if fails failures draw "crash" then LabelStep.forcedExit (exit 10) else LabelStep.proceed

/-- The initial `_failures` table of `__init__` with the crash rate set to
`r` by `set_crash_rate(r)`. -/
def failuresWithCrash (r : Nat) : List (String × Nat) :=
  [("send", 0), ("receive", 0), ("crash", r)]

/-- The `to` argument of `_send`: a single destination or an iterable of
destinations (the `hasattr(to, '__iter__')` branch). -/
inductive Dest where
  | single (d : Nat)
  | many (ds : List Nat)

/-- Everything `_send` produces: the updated `_logical_clock`, the boolean
result returned to the caller, the payloads handed to the channel (each
destination's `t.send(data, self._id, self._logical_clock)` call as
`(dest, data, fromId, clock)`), the locally triggered SENT event if any,
and whether `('sent', 1)` was reported to the parent. -/
structure SendResult (α : Type) where
  logical_clock : Nat
  result : Bool
  transmitted : List (Nat × α × Nat × Nat)
  sent_event : Option (Event α)
  sent_report : Bool
deriving Repr

/-- `_send(data, to)`: increment the clock, then if the fault injector fires
for class 'send' (`failsSend` is the outcome of that `_fails('send')` call)
return `False` at once — nothing is transmitted, no SENT event is triggered,
nothing is reported. Otherwise send to each destination (`chanOk d` is the
boolean returned by destination `d`'s channel `send`), aggregate the result,
trigger a SENT event `Event(SentEvent, self._id, self._logical_clock, data)`
and report `('sent', 1)` to the parent. -/
def dpy_send (selfId : Nat) (clock : Nat) (data : α) (dst : Dest) (failsSend : Bool)
    (chanOk : Nat → Bool) : SendResult α :=
  let clock1 := clock + 1
  if failsSend then
    { logical_clock := clock1, result := false, transmitted := [],
      sent_event := Option.none, sent_report := false }
  else
    let rt : Bool × List (Nat × α × Nat × Nat) :=
      match dst with
      | Dest.single d => (chanOk d, [(d, data, selfId, clock1)])
      | Dest.many ds => (ds.all chanOk, ds.map (fun d => (d, data, selfId, clock1)))
    { logical_clock := clock1, result := rt.1, transmitted := rt.2,
      sent_event := Option.some
        { kind := EventKind.sent, message := data, timestamp := clock1,
          source := Option.some selfId, dest := Option.none },
      sent_report := true }

/-- A handshake command received over the init pipe in `_wait_for_go`: the
terminal string `"start"`, or a pair `(inst, args)` — `("setup", args)`
invokes `setup(*args)`, any other `inst` invokes `set_<inst>(*args)`. -/
inductive HSCmd (γ : Type) where
  | start
  | cmd (inst : String) (args : γ)
deriving DecidableEq, Repr

/-- Observable handshake state of the child: the `_running` flag and the
recorded invocations of `setup` and of the dynamic setters (in call order). -/
structure HSState (γ : Type) where
  running : Bool
  setupCalls : List γ
  setterCalls : List (String × γ)
deriving DecidableEq, Repr

/-- `_wait_for_go`: consume commands from the pipe until `"start"`, which
sets `_running = True` and returns (the pipe is deleted; the unconsumed
remainder of the command stream is returned to witness that no further
handshake command is processed). An exhausted stream means the child is
still blocked in `recv()` with the state accumulated so far. -/
def wait_for_go : List (HSCmd γ) → HSState γ → HSState γ × List (HSCmd γ)
  | [], s => (s, [])
  | HSCmd.start :: rest, s => ({ s with running := true }, rest)
  | HSCmd.cmd inst args :: rest, s =>
      if inst = "setup" then
        wait_for_go rest { s with setupCalls := s.setupCalls ++ [args] }
      else
        wait_for_go rest { s with setterCalls := s.setterCalls ++ [(inst, args)] }

/-- The command sequence `spawn(pcls, args)` writes to the child's pipe:
`ownp.send(("setup", args)); ownp.send("start")`. -/
def spawnCmds (args : γ) : List (HSCmd γ) := [HSCmd.cmd "setup" args, HSCmd.start]

/-- `_has_received(mess)`: `self._received_q.remove(mess)` (which removes the
first occurrence) returning `True`, or `False` on `ValueError` (raised iff
`mess` is absent), leaving the queue unchanged. Returns (result, queue). -/
def has_received [DecidableEq α] (q : List α) (m : α) : Bool × List α :=
  if m ∈ q then (true, q.erase m) else (false, q)

/-- A process attribute value: a list-valued message store, or any other
attribute value (opaque). `setattr(self, attr, [])` stores `vlist []`. -/
inductive PVal (α : Type) where
  | vlist (xs : List α)
  | other (v : α)
deriving DecidableEq, Repr

/-- `attr.startswith(pre)`. -/
def startsWith (attr pre : String) : Bool := pre.data.isPrefixOf attr.data

/-- `purge_received`: scan the attribute table (`dir(self)` order) and reset
every attribute whose name starts with `"_receive_messages_"` to `[]`. -/
def purge_received : List (String × PVal α) → List (String × PVal α)
  | [] => []
  | (n, v) :: rest =>
      (if startsWith n "_receive_messages_" then (n, PVal.vlist []) else (n, v)) ::
        purge_received rest

/-- `purge_sent`: same scan for the `"_sent_messages_"` name pattern. -/
def purge_sent : List (String × PVal α) → List (String × PVal α)
  | [] => []
  | (n, v) :: rest =>
      (if startsWith n "_sent_messages_" then (n, PVal.vlist []) else (n, v)) ::
        purge_sent rest

/-! ## Helper lemmas -/

theorem updateHistory_clock (p : Pattern α β) (s : PState α β) (e : Event α) :
    (updateHistory p s e).logical_clock = s.logical_clock := by
  unfold updateHistory
  cases p.record_history <;> rfl

theorem triggerOne_clock (e : Event α) (s : PState α β) (p : Pattern α β) :
    (triggerOne e s p).logical_clock = s.logical_clock := by
  unfold triggerOne
  cases hm : p.matchFn e with
  | none => rfl
  | some b => exact updateHistory_clock p s e

theorem trigger_event_clock (ps : List (Pattern α β)) (s : PState α β) (e : Event α) :
    (trigger_event ps s e).logical_clock = s.logical_clock := by
  induction ps generalizing s with
  | nil => rfl
  | cons p ps ih =>
      show (List.foldl (triggerOne e) (triggerOne e s p) ps).logical_clock = _
      rw [show List.foldl (triggerOne e) (triggerOne e s p) ps
            = trigger_event ps (triggerOne e s p) e from rfl,
          ih, triggerOne_clock]

theorem process_event_clock_le (ps : List (Pattern α β)) (s : PState α β)
    (o : Option (Event α)) :
    s.logical_clock ≤ (process_event ps s o).logical_clock := by
  cases o with
  | none => exact Nat.le_refl _
  | some e =>
      show s.logical_clock ≤ (trigger_event ps _ e).logical_clock
      rw [trigger_event_clock]
      exact Nat.le_succ_of_le (Nat.le_max_left _ _)

theorem foldl_process_event_clock_le (ps : List (Pattern α β))
    (evs : List (Option (Event α))) (s : PState α β) :
    s.logical_clock ≤ (evs.foldl (process_event ps) s).logical_clock := by
  induction evs generalizing s with
  | nil => exact Nat.le_refl _
  | cons o os ih => exact Nat.le_trans (process_event_clock_le ps s o) (ih _)

/-! ## Claim theorems -/

/-- C1: popping an event updates the logical clock to
`max(clock_before, event.timestamp) + 1`; hence the clock ends strictly
greater than the processed event's timestamp, never decreases at one step,
and is non-decreasing across any sequence of dispatcher steps. -/
theorem C1_clock_advance (ps : List (Pattern α β)) (s : PState α β) (e : Event α)
    (evs : List (Option (Event α))) :
    (process_event ps s (Option.some e)).logical_clock
        = max s.logical_clock e.timestamp + 1
    ∧ e.timestamp < (process_event ps s (Option.some e)).logical_clock
    ∧ s.logical_clock ≤ (process_event ps s (Option.some e)).logical_clock
    ∧ s.logical_clock ≤ (evs.foldl (process_event ps) s).logical_clock := by
  have hc : (process_event ps s (Option.some e)).logical_clock
      = max s.logical_clock e.timestamp + 1 := by
    show (trigger_event ps _ e).logical_clock = _
    rw [trigger_event_clock]
  refine ⟨hc, ?_, ?_, foldl_process_event_clock_le ps evs s⟩
  · rw [hc]; exact Nat.lt_succ_of_le (Nat.le_max_right _ _)
  · rw [hc]; exact Nat.le_succ_of_le (Nat.le_max_left _ _)

/-- C2 counterexample: at a concrete suppressed send (`_fails('send')`
true), `_send` returns `False` before reaching `_trigger_event`, so no SENT
event is triggered locally (and no `('sent', 1)` report is made) — refuting
the claim that a SENT event still fires on a failed send. -/
theorem C2_counterexample :
    (dpy_send 7 0 (0 : Nat) (Dest.single 1) true (fun _ => true)).sent_event
        = Option.none
    ∧ (dpy_send 7 0 (0 : Nat) (Dest.single 1) true (fun _ => true)).result = false
    ∧ (dpy_send 7 0 (0 : Nat) (Dest.single 1) true (fun _ => true)).logical_clock = 1 :=
  ⟨rfl, rfl, rfl⟩

/-- C2 (amended): when the Fault Injector suppresses a send, `_send` returns
a failure result and transmits no payload to any destination, and the
logical clock still advances by exactly 1 for that call; however no SENT
event is triggered locally and no send count is reported (the failure
branch returns before `_trigger_event`). -/
theorem C2_send_suppressed (selfId clock : Nat) (data : α) (dst : Dest)
    (chanOk : Nat → Bool) :
    (dpy_send selfId clock data dst true chanOk).logical_clock = clock + 1
    ∧ (dpy_send selfId clock data dst true chanOk).result = false
    ∧ (dpy_send selfId clock data dst true chanOk).transmitted = []
    ∧ (dpy_send selfId clock data dst true chanOk).sent_event = Option.none
    ∧ (dpy_send selfId clock data dst true chanOk).sent_report = false :=
  ⟨rfl, rfl, rfl, rfl, rfl⟩

theorem fails_crash_rate (r d : Nat) :
    fails (failuresWithCrash r) d "crash" = decide (d < r) := rfl

/-- C3: `random.randint(0, 100)` is INCLUSIVE of 100, so the draw space is
[0, 100]; at the possible draw 100 with crash-rate 100, `_fails('crash')`
returns false and the label checkpoint does not force-exit, contradicting
the claim that with crash-rate=100 every possible draw force-exits. The
remaining parts hold: `_fails` is true iff the class has a configured rate
and the draw is below it (unknown classes never fail), and with
crash-rate=0 no draw ever force-exits. -/
theorem C3_randint_inclusive (failures : List (String × Nat)) (d0 : Nat)
    (ft : String) :
    possibleDraw 100 = true
    ∧ fails (failuresWithCrash 100) 100 "crash" = false
    ∧ label_crash_check (failuresWithCrash 100) 100 = LabelStep.proceed
    ∧ (fails failures d0 ft = true
        ↔ ∃ rate, failures.lookup ft = Option.some rate ∧ d0 < rate)
    ∧ (failures.lookup ft = Option.none → fails failures d0 ft = false)
    ∧ (∀ d : Nat, label_crash_check (failuresWithCrash 0) d = LabelStep.proceed)
    ∧ (∀ d : Nat, d < 100 →
        label_crash_check (failuresWithCrash 100) d = LabelStep.forcedExit 10) := by
  refine ⟨rfl, by decide, by decide, ?_, ?_, ?_, ?_⟩
  · unfold fails
    cases h : failures.lookup ft with
    | none => simp
    | some rate => simp [h]
  · intro h; unfold fails; rw [h]
  · intro d
    unfold label_crash_check
    rw [fails_crash_rate]
    simp
  · intro d hd
    unfold label_crash_check
    rw [fails_crash_rate]
    simp [hd, exit]

/-- C4: the code of `exit(code)` raises `SystemExit(10)` regardless of the
argument: at the failing input `code = 5` the process terminates with exit
status 10, not 5, contradicting the claim that the process exits with the
given code. -/
theorem C4_exit_ignores_code : exit 5 = 10 ∧ exit 5 ≠ 5 := by decide

theorem process_jobqueue_executed (label : String) (jq : List (Handler β × β)) :
    (process_jobqueue label jq).1
      = (jq.filter (fun j => admits j.1 label)).map (fun j => (j, j.1.call j.2)) := by
  induction jq with
  | nil => rfl
  | cons j rest ih =>
      obtain ⟨h, args⟩ := j
      by_cases hadm : admits h label
      · simp [process_jobqueue, hadm, List.filter_cons, ih]
      · simp [process_jobqueue, hadm, List.filter_cons, ih]

theorem process_jobqueue_kept (label : String) (jq : List (Handler β × β)) :
    (process_jobqueue label jq).2 = jq.filter (fun j => ! admits j.1 label) := by
  induction jq with
  | nil => rfl
  | cons j rest ih =>
      obtain ⟨h, args⟩ := j
      by_cases hadm : admits h label
      · simp [process_jobqueue, hadm, List.filter_cons, ih]
      · simp [process_jobqueue, hadm, List.filter_cons, ih]

/-- C5: at a label checkpoint named `label`, a queued job is executed iff its
handler's label-inclusion set is absent or contains `label` and its
label-exclusion set is absent or does not contain `label` (the `admits`
test, shown equivalent to that rule); admissible jobs are executed in FIFO
enqueue order and removed, non-admissible jobs remain queued in their
original relative order, and no job is dropped merely for failing to match
the label. -/
theorem C5_label_scheduler (label : String) (jq : List (Handler β × β))
    (h : Handler β) :
    (admits h label = true ↔
      ((h.labels = Option.none ∨ ∃ ls, h.labels = Option.some ls ∧ label ∈ ls)
        ∧ (h.notlabels = Option.none
            ∨ ∃ ls, h.notlabels = Option.some ls ∧ label ∉ ls)))
    ∧ (process_jobqueue label jq).1
        = (jq.filter (fun j => admits j.1 label)).map (fun j => (j, j.1.call j.2))
    ∧ (process_jobqueue label jq).2 = jq.filter (fun j => ! admits j.1 label)
    ∧ (∀ j, j ∈ jq → admits j.1 label = false → j ∈ (process_jobqueue label jq).2) := by
  refine ⟨?_, process_jobqueue_executed label jq, process_jobqueue_kept label jq, ?_⟩
  · unfold admits
    cases h.labels with
    | none =>
        cases h.notlabels with
        | none => simp
        | some ls => simp
    | some ls =>
        cases h.notlabels with
        | none => simp
        | some ls2 => simp
  · intro j hj hna
    rw [process_jobqueue_kept]
    simp [List.mem_filter, hj, hna]

/-- C8: an admissible job whose handler raises a `TypeError` (insufficient
bindings) is still consumed: it appears in the executed trace with the
`typeError` outcome, it is absent from the new queue (never retried), the
new queue is exactly the non-admissible jobs of the rest of the queue, and
every admissible job queued after it is still executed. -/
theorem C8_binding_error (label : String) (pre post : List (Handler β × β))
    (j : Handler β × β) (hadm : admits j.1 label = true)
    (herr : j.1.call j.2 = CallOutcome.typeError) :
    (j, CallOutcome.typeError) ∈ (process_jobqueue label (pre ++ j :: post)).1
    ∧ j ∉ (process_jobqueue label (pre ++ j :: post)).2
    ∧ (process_jobqueue label (pre ++ j :: post)).2
        = (pre ++ post).filter (fun x => ! admits x.1 label)
    ∧ (∀ k, k ∈ post → admits k.1 label = true →
        (k, k.1.call k.2) ∈ (process_jobqueue label (pre ++ j :: post)).1) := by
  have hmemj : j ∈ pre ++ j :: post := by simp
  refine ⟨?_, ?_, ?_, ?_⟩
  · rw [process_jobqueue_executed]
    rw [← herr]
    exact List.mem_map_of_mem _ (List.mem_filter.mpr ⟨hmemj, hadm⟩)
  · rw [process_jobqueue_kept]
    intro hmem
    have := (List.mem_filter.mp hmem).2
    rw [hadm] at this
    simp at this
  · rw [process_jobqueue_kept]
    simp [List.filter_append, List.filter_cons, hadm]
  · intro k hk hka
    rw [process_jobqueue_executed]
    exact List.mem_map_of_mem _ (List.mem_filter.mpr ⟨by simp [hk], hka⟩)

/-- A concrete handler whose invocation raises `TypeError`, for the C8
witness. -/
def handlerTE : Handler Nat :=
  { labels := Option.none, notlabels := Option.none,
    call := fun _ => CallOutcome.typeError }

/-- C8 witness: a concrete one-job queue whose admissible handler fails with
a binding error — it is executed (with `typeError`), removed, and the rest
of the queue is processed. -/
theorem C8_binding_error_witness :
    admits handlerTE "L" = true
    ∧ handlerTE.call 0 = CallOutcome.typeError
    ∧ ((handlerTE, 0), CallOutcome.typeError)
        ∈ (process_jobqueue "L" ([] ++ (handlerTE, 0) :: [])).1
    ∧ (handlerTE, 0) ∉ (process_jobqueue "L" ([] ++ (handlerTE, 0) :: [])).2 :=
  have h := C8_binding_error "L" [] [] (handlerTE, 0) rfl rfl
  ⟨rfl, rfl, h.1, h.2.1⟩

theorem trigger_single_step (p : Pattern α β) (s : PState α β) (e : Event α)
    (bv : β) (hp : p.record_history = RecordHistory.appendRaw)
    (hme : p.matchFn e = Option.some bv) :
    (trigger_event [p] s e).histories p.name = s.histories p.name ++ [e.to_tuple]
    ∧ (trigger_event [p] s e).jobqueue
        = s.jobqueue ++ p.handlers.map (fun h => (h, bv)) := by
  show ((triggerOne e s p).histories p.name = _) ∧ ((triggerOne e s p).jobqueue = _)
  unfold triggerOne
  rw [hme]
  unfold updateHistory
  rw [hp]
  simp

/-- C6: with history policy append-raw-history (`record_history is True`),
after the pattern matches events `E1..En` in trigger order (with bindings
`b Ei`), the history container stored under the pattern's name equals the
original container extended by `[E1.to_tuple, ..., En.to_tuple]` in exactly
that order, and the job queue has gained, for each match in order, one job
per handler of the pattern carrying that match's bindings. -/
theorem C6_append_raw_history (p : Pattern α β) (s : PState α β)
    (evs : List (Event α)) (b : Event α → β)
    (hp : p.record_history = RecordHistory.appendRaw)
    (hm : ∀ e ∈ evs, p.matchFn e = Option.some (b e)) :
    (evs.foldl (trigger_event [p]) s).histories p.name
        = s.histories p.name ++ evs.map Event.to_tuple
    ∧ (evs.foldl (trigger_event [p]) s).jobqueue
        = s.jobqueue ++ evs.flatMap (fun e => p.handlers.map (fun h => (h, b e))) := by
  induction evs generalizing s with
  | nil => simp
  | cons e es ih =>
      have hme : p.matchFn e = Option.some (b e) := hm e (by simp)
      have hrest : ∀ x ∈ es, p.matchFn x = Option.some (b x) := by
        intro x hx
        exact hm x (by simp [hx])
      have hstep := trigger_single_step p s e (b e) hp hme
      have hih := ih (trigger_event [p] s e) hrest
      constructor
      · rw [List.foldl_cons, hih.1, hstep.1]
        simp
      · rw [List.foldl_cons, hih.2, hstep.2]
        simp

/-- A concrete pattern with append-raw-history policy, for the C6 witness:
it matches every event, binding its timestamp. -/
def patternC6 : Pattern Nat Nat :=
  { name := "hist", matchFn := fun e => Option.some e.timestamp,
    record_history := RecordHistory.appendRaw,
    handlers := [{ labels := Option.none, notlabels := Option.none,
                   call := fun _ => CallOutcome.ok }] }

/-- An empty dispatch state, for the C6 witness. -/
def stateC6 : PState Nat Nat :=
  { logical_clock := 0, histories := fun _ => [], jobqueue := [] }

/-- A concrete RECEIVED event with timestamp and payload `t`, for the C6
witness. -/
def eventC6 (t : Nat) : Event Nat :=
  { kind := EventKind.received, message := t, timestamp := t,
    source := Option.some 1, dest := Option.none }

/-- C6 witness: after `patternC6` observes three concrete events in order,
its history container holds their canonical tuples in that order. -/
theorem C6_append_raw_history_witness :
    patternC6.record_history = RecordHistory.appendRaw
    ∧ ([eventC6 1, eventC6 2, eventC6 3].foldl
          (trigger_event [patternC6]) stateC6).histories patternC6.name
        = stateC6.histories patternC6.name
            ++ [eventC6 1, eventC6 2, eventC6 3].map Event.to_tuple :=
  ⟨rfl,
    (C6_append_raw_history patternC6 stateC6 [eventC6 1, eventC6 2, eventC6 3]
      (fun e => e.timestamp) rfl (fun _ _ => rfl)).1⟩

theorem wait_for_go_running (cmds : List (HSCmd γ)) (s : HSState γ)
    (hns : ∀ c ∈ cmds, c ≠ HSCmd.start) :
    (wait_for_go cmds s).1.running = s.running := by
  induction cmds generalizing s with
  | nil => rfl
  | cons c rest ih =>
      cases c with
      | start => exact absurd rfl (hns HSCmd.start (by simp))
      | cmd inst args =>
          have hrest : ∀ x ∈ rest, x ≠ HSCmd.start := by
            intro x hx
            exact hns x (by simp [hx])
          by_cases hi : inst = "setup"
          · rw [wait_for_go, if_pos hi]
            exact ih _ hrest
          · rw [wait_for_go, if_neg hi]
            exact ih _ hrest

/-- C7: in the spawn handshake the parent writes exactly
`("setup", args)` then `"start"` (`spawnCmds`); from a fresh child state the
handshake loop invokes `setup` with exactly those arguments exactly once,
sets the running flag on `"start"`, and leaves every later command
unprocessed; and over any command prefix not containing `"start"` (the
earlier points of the loop) the running flag is still false. -/
theorem C7_spawn_handshake (args : γ) (extra cmds : List (HSCmd γ))
    (hns : ∀ c ∈ cmds, c ≠ HSCmd.start) :
    wait_for_go (spawnCmds args ++ extra)
        { running := false, setupCalls := [], setterCalls := [] }
      = ({ running := true, setupCalls := [args], setterCalls := [] }, extra)
    ∧ (wait_for_go cmds
        { running := false, setupCalls := [], setterCalls := [] }).1.running
      = false :=
  ⟨rfl, wait_for_go_running cmds _ hns⟩

/-- C7 witness: the concrete handshake `("setup", (42,))` then `"start"`
(with a trailing unconsumed command), and a start-free prefix after which
the child is still not running. -/
theorem C7_spawn_handshake_witness :
    (∀ c ∈ ([HSCmd.cmd "set_name" 0] : List (HSCmd Nat)), c ≠ HSCmd.start)
    ∧ wait_for_go (spawnCmds (42 : Nat) ++ [HSCmd.cmd "later" 7])
        { running := false, setupCalls := [], setterCalls := [] }
      = ({ running := true, setupCalls := [42], setterCalls := [] },
          [HSCmd.cmd "later" 7])
    ∧ (wait_for_go ([HSCmd.cmd "set_name" 0] : List (HSCmd Nat))
        { running := false, setupCalls := [], setterCalls := [] }).1.running
      = false :=
  have h := C7_spawn_handshake (42 : Nat) [HSCmd.cmd "later" 7]
    [HSCmd.cmd "set_name" 0] (by decide)
  ⟨by decide, h.1, h.2⟩

/-- C9: `_has_received(m)` is a mutating membership test: when `m` is in the
received queue it returns `True` and removes exactly the first occurrence
of `m` (the queue splits as `l1 ++ m :: l2` with `m ∉ l1` and becomes
`l1 ++ l2`); when `m` is absent it returns `False` and leaves the queue
unchanged. -/
theorem C9_has_received_removes_first [DecidableEq α] (q : List α) (m : α) :
    (m ∈ q → (has_received q m).1 = true
      ∧ ∃ l1 l2, m ∉ l1 ∧ q = l1 ++ m :: l2 ∧ (has_received q m).2 = l1 ++ l2)
    ∧ (m ∉ q → (has_received q m).1 = false ∧ (has_received q m).2 = q) := by
  constructor
  · intro hm
    rw [has_received, if_pos hm]
    refine ⟨rfl, ?_⟩
    obtain ⟨l1, l2, h1, h2, h3⟩ := List.exists_erase_eq hm
    exact ⟨l1, l2, h1, h2, h3⟩
  · intro hm
    rw [has_received, if_neg hm]
    exact ⟨rfl, rfl⟩

theorem purge_received_map (fields : List (String × PVal α)) :
    purge_received fields = fields.map (fun f =>
      if startsWith f.1 "_receive_messages_" then (f.1, PVal.vlist []) else f) := by
  induction fields with
  | nil => rfl
  | cons f rest ih =>
      obtain ⟨n, v⟩ := f
      rw [purge_received, ih, List.map_cons]

theorem purge_sent_map (fields : List (String × PVal α)) :
    purge_sent fields = fields.map (fun f =>
      if startsWith f.1 "_sent_messages_" then (f.1, PVal.vlist []) else f) := by
  induction fields with
  | nil => rfl
  | cons f rest ih =>
      obtain ⟨n, v⟩ := f
      rw [purge_sent, ih, List.map_cons]

/-- C10: `purge_received` resets every attribute whose name starts with
`"_receive_messages_"` to the empty list and modifies no other attribute
(same attribute table length, and position by position every entry is
either reset to `[]`, when the name has the prefix, or kept identical);
`purge_sent` does the same for the `"_sent_messages_"` name pattern. -/
theorem C10_purge_frame (fields : List (String × PVal α)) :
    (purge_received fields).length = fields.length
    ∧ (purge_sent fields).length = fields.length
    ∧ (∀ i : Nat, (purge_received fields)[i]? = (fields[i]?).map (fun f =>
        if startsWith f.1 "_receive_messages_" then (f.1, PVal.vlist []) else f))
    ∧ (∀ i : Nat, (purge_sent fields)[i]? = (fields[i]?).map (fun f =>
        if startsWith f.1 "_sent_messages_" then (f.1, PVal.vlist []) else f)) := by
  refine ⟨?_, ?_, ?_, ?_⟩
  · rw [purge_received_map, List.length_map]
  · rw [purge_sent_map, List.length_map]
  · intro i
    rw [purge_received_map, List.getElem?_map]
  · intro i
    rw [purge_sent_map, List.getElem?_map]

end DistSim
